import Mathlib

/-!
Verification of the model-registry pattern of `candidate_models`
(files `candidate_models/base_models/__init__.py` and
`candidate_models/model_commitments/__init__.py`).

The embedding models, faithfully to the Python source:
  * the mobilenet descriptor table and its expansion loop, including
    Python's late binding of the loop variables that are free in the
    generated lambdas (the lambdas read the module-level variables at
    call time, not at registration time);
  * `TFSlimModel.init` / `_init_preprocessing` / `_find_model_weights`;
  * the `LazyLoad`-backed lazy registry, the `UniqueKeyDict`, and the
    pool-merge composition step.  Their implementations are not part of
    the two source files, so they are modelled from the specification
    (see the individual doc comments).

Python floats: every multiplier literal in the descriptor table
(1.0, 0.75, 0.5, 0.25, 1.4, 1.3, 0.35) is represented by the rational
value of its decimal literal.  These seven literals denote seven
distinct IEEE doubles, and the only float comparisons the source
performs are between members of this set, so rational equality agrees
with the source's float equality.  The two float-to-string operations
the source performs (`str(multiplier)` inside the f-string for the
identifier, and `format(multiplier * 100, "03")` for the net-name
override) are tabulated below with their exact CPython results;
`1.4 * 100` rounds to exactly `140.0` in IEEE double arithmetic, so
`format` renders it as `"140.0"`.
-/

namespace CandidateModels

/-- The 38 `(version, multiplier, image_size)` tuples of the mobilenet
descriptor list (`base_models/__init__.py`, lines 135-148). -/
def mobilenet_descriptors : List (Nat × Rat × Nat) := [
  -- v1
  (1, mkRat 1 1, 224), (1, mkRat 1 1, 192), (1, mkRat 1 1, 160), (1, mkRat 1 1, 128),
  (1, mkRat 3 4, 224), (1, mkRat 3 4, 192), (1, mkRat 3 4, 160), (1, mkRat 3 4, 128),
  (1, mkRat 1 2, 224), (1, mkRat 1 2, 192), (1, mkRat 1 2, 160), (1, mkRat 1 2, 128),
  (1, mkRat 1 4, 224), (1, mkRat 1 4, 192), (1, mkRat 1 4, 160), (1, mkRat 1 4, 128),
  -- v2
  (2, mkRat 7 5, 224),
  (2, mkRat 13 10, 224),
  (2, mkRat 1 1, 224), (2, mkRat 1 1, 192), (2, mkRat 1 1, 160), (2, mkRat 1 1, 128), (2, mkRat 1 1, 96),
  (2, mkRat 3 4, 224), (2, mkRat 3 4, 192), (2, mkRat 3 4, 160), (2, mkRat 3 4, 128), (2, mkRat 3 4, 96),
  (2, mkRat 1 2, 224), (2, mkRat 1 2, 192), (2, mkRat 1 2, 160), (2, mkRat 1 2, 128), (2, mkRat 1 2, 96),
  (2, mkRat 7 20, 224), (2, mkRat 7 20, 192), (2, mkRat 7 20, 160), (2, mkRat 7 20, 128), (2, mkRat 7 20, 96)]

/-- `str(multiplier)` for the multiplier doubles occurring in the
descriptor table (CPython shortest-repr of the corresponding IEEE
double, which for these literals is the decimal literal itself). -/
def multiplier_str (m : Rat) : String :=
  if m = mkRat 1 1 then "1.0"
  else if m = mkRat 3 4 then "0.75"
  else if m = mkRat 1 2 then "0.5"
  else if m = mkRat 1 4 then "0.25"
  else if m = mkRat 7 5 then "1.4"
  else if m = mkRat 13 10 then "1.3"
  else if m = mkRat 7 20 then "0.35"
  else ""

/-- `format(multiplier * 100, "03")` for the multipliers that receive a
net-name override.  The products are computed in IEEE double
arithmetic: `0.75 * 100 = 75.0`, `0.5 * 100 = 50.0`, `0.25 * 100 =
25.0` exactly, and `1.4 * 100` rounds to exactly `140.0`; format spec
`03` (zero-pad to minimum width 3) is a no-op on all four renderings. -/
def multiplier_times100_fmt (m : Rat) : String :=
  if m = mkRat 3 4 then "75.0"
  else if m = mkRat 1 2 then "50.0"
  else if m = mkRat 1 4 then "25.0"
  else if m = mkRat 7 5 then "140.0"
  else ""

/-- `f"mobilenet_v{version}_{multiplier}_{image_size}"` (line 149). -/
def mobilenet_identifier (version : Nat) (m : Rat) (image_size : Nat) : String :=
  "mobilenet_v" ++ toString version ++ "_" ++ multiplier_str m ++ "_" ++ toString image_size

/-- The net-name computation of lines 150-153: the override
`f"mobilenet_v{version}_{multiplier * 100:03}"` for
(version 1, multiplier in [.75, .5, .25]) and (version 2, multiplier
1.4), and the default `f"mobilenet_v{version}"` otherwise. -/
def mobilenet_net_name (version : Nat) (m : Rat) : String :=
  if (version = 1 ∧ (m = mkRat 3 4 ∨ m = mkRat 1 2 ∨ m = mkRat 1 4)) ∨ (version = 2 ∧ m = mkRat 7 5) then
    "mobilenet_v" ++ toString version ++ "_" ++ multiplier_times100_fmt m
  else
    "mobilenet_v" ++ toString version

/-- The module-level variables `identifier`, `image_size` and `net_name`
that the mobilenet loop assigns on every iteration.  The lambdas built
inside the loop refer to them as free variables, so they are read at
call time (Python late binding), not at registration time. -/
structure LoopVars where
  identifier : String
  image_size : Nat
  net_name : String
deriving Repr, DecidableEq

/-- The framework-specific construction call a registered factory
performs when it is realized, with the exact arguments passed. -/
inductive ModelCall where
  | pytorch (function : String) (image_size : Nat)
  | keras (module : String) (model_function : String) (image_size : Nat)
  | tfslim (identifier : String) (preprocessing_type : String) (image_size : Nat)
      (net_name : Option String) (labels_offset : Nat)
deriving Repr, DecidableEq

/-- A zero-argument factory stored in `_key_functions`.  It receives the
values that the module-level loop variables hold at the moment it is
called; the statically declared factories ignore them, the mobilenet
factories read all three (that is the Python closure semantics of
`lambda: TFSlimModel.init(identifier, ..., image_size=image_size,
net_name=net_name)`, which captures the variables, not their values). -/
def Factory : Type := LoopVars → ModelCall

/-- The 25 statically declared entries of `_key_functions`
(lines 102-134).  Each lambda closes over literal arguments only, so it
is constant in the loop variables. -/
def static_key_functions : List (String × Factory) := [
  ("alexnet", fun _ => .pytorch "alexnet" 224),
  ("squeezenet1_0", fun _ => .pytorch "squeezenet1_0" 224),
  ("squeezenet1_1", fun _ => .pytorch "squeezenet1_1" 224),
  ("resnet-18", fun _ => .pytorch "resnet18" 224),
  ("resnet-34", fun _ => .pytorch "resnet34" 224),
  ("vgg-16", fun _ => .keras "vgg16" "VGG16" 224),
  ("vgg-19", fun _ => .keras "vgg19" "VGG19" 224),
  ("xception", fun _ => .keras "xception" "Xception" 299),
  ("densenet-121", fun _ => .keras "densenet" "DenseNet121" 224),
  ("densenet-169", fun _ => .keras "densenet" "DenseNet169" 224),
  ("densenet-201", fun _ => .keras "densenet" "DenseNet201" 224),
  ("inception_v1", fun _ => .tfslim "inception_v1" "inception" 224 none 1),
  ("inception_v2", fun _ => .tfslim "inception_v2" "inception" 224 none 1),
  ("inception_v3", fun _ => .tfslim "inception_v3" "inception" 299 none 1),
  ("inception_v4", fun _ => .tfslim "inception_v4" "inception" 299 none 1),
  ("inception_resnet_v2", fun _ => .tfslim "inception_resnet_v2" "inception" 299 none 1),
  ("resnet-50_v1", fun _ => .tfslim "resnet_v1_50" "vgg" 224 none 0),
  ("resnet-101_v1", fun _ => .tfslim "resnet_v1_101" "vgg" 224 none 0),
  ("resnet-152_v1", fun _ => .tfslim "resnet_v1_152" "vgg" 224 none 0),
  ("resnet-50_v2", fun _ => .tfslim "resnet_v2_50" "inception" 299 none 1),
  ("resnet-101_v2", fun _ => .tfslim "resnet_v2_101" "inception" 299 none 1),
  ("resnet-152_v2", fun _ => .tfslim "resnet_v2_152" "inception" 299 none 1),
  ("nasnet_mobile", fun _ => .tfslim "nasnet_mobile" "inception" 331 none 1),
  ("nasnet_large", fun _ => .tfslim "nasnet_large" "inception" 331 none 1),
  ("pnasnet_large", fun _ => .tfslim "pnasnet_large" "inception" 331 none 1)]

/-- Python dict assignment `d[k] = v`: replace the value if the key is
present, append a new entry otherwise. -/
def dictInsert {α : Type} (l : List (String × α)) (k : String) (v : α) : List (String × α) :=
  if l.any (fun kv => kv.1 == k) then
    l.map (fun kv => if kv.1 == k then (kv.1, v) else kv)
  else
    l ++ [(k, v)]

/-- One iteration of the mobilenet expansion loop (lines 135-155):
assign `identifier`, `net_name` (and the loop variable `image_size`),
then store `_key_functions[identifier] = lambda: TFSlimModel.init(
identifier, preprocessing_type='inception', image_size=image_size,
net_name=net_name)`.  The stored lambda reads all three variables from
the enclosing scope at call time, which the `LoopVars` argument makes
explicit. -/
def mobilenet_step (acc : List (String × Factory) × LoopVars) (d : Nat × Rat × Nat) :
    List (String × Factory) × LoopVars :=
  let identifier := mobilenet_identifier d.1 d.2.1 d.2.2
  let net_name := mobilenet_net_name d.1 d.2.1
  (dictInsert acc.1 identifier
      (fun g => .tfslim g.identifier "inception" g.image_size (some g.net_name) 1),
    ⟨identifier, d.2.2, net_name⟩)

/-- Running the expansion loop over the whole descriptor list:
the resulting `_key_functions` dict together with the final values of
the loop variables.  The initial `LoopVars` value is a placeholder for
the unbound state before the first iteration; the descriptor list is
non-empty, so it is overwritten before any factory can observe it. -/
def expansion : List (String × Factory) × LoopVars :=
  mobilenet_descriptors.foldl mobilenet_step (static_key_functions, ⟨"", 0, ""⟩)

/-- `_key_functions` after module initialization. -/
def key_functions : List (String × Factory) := expansion.1

/-- The values the module-level variables `identifier`, `image_size`
and `net_name` hold once the loop has finished — the environment every
factory sees when it is eventually called. -/
def final_loop_vars : LoopVars := expansion.2

/-- Realizing the entry registered under `k`: `base_model_pool[k]` wraps
`LazyLoad(lambda function=function: function())`, whose default
parameter binds the dict value itself; calling that value evaluates its
body with the module-level variables at their final values. -/
def realize (k : String) : Option ModelCall :=
  (key_functions.find? (fun kv => kv.1 == k)).map (fun kv => kv.2 final_loop_vars)

/-! ## The lazy registry (`LazyLoad`-backed pools) -/

/-- Modelled from the spec: one entry of a lazy registry (the source
wraps every factory in `LazyLoad` from `brainscore.utils`, whose
implementation is not among the source files; the spec describes it in
sections 2, 4.1 and 7).  `factory n` is the outcome of the `n`-th
invocation of the zero-argument factory (counting from 0), so that a
factory may raise on one call and succeed on a later one; `invocations`
counts how often the factory has actually been called; `cached` holds
the realized value once a call has succeeded. -/
structure Entry (α : Type) where
  factory : Nat → Except String α
  invocations : Nat
  cached : Option α

/-- Realize one entry: return the cached value if realization already
happened; otherwise call the factory once — on success cache the
result, on error leave the entry unrealized (no negative caching).
Either way a performed call is counted. -/
def Entry.force {α : Type} (e : Entry α) : Except String α × Entry α :=
  match e.cached with
  | some v => (.ok v, e)
  | none =>
    match e.factory e.invocations with
    | .ok v => (.ok v, { e with invocations := e.invocations + 1, cached := some v })
    | .error msg => (.error msg, { e with invocations := e.invocations + 1 })

/-- Modelled from the spec: a lazy registry, an association of string
identifiers with lazily realizable entries (section 4.1). -/
structure Registry (α : Type) where
  entries : List (String × Entry α)

/-- `register(key, factory)`: store an unrealized entry. -/
def Registry.register {α : Type} (r : Registry α) (k : String) (f : Nat → Except String α) :
    Registry α :=
  ⟨r.entries ++ [(k, ⟨f, 0, none⟩)]⟩

/-- Replace the entry stored under `k`. -/
def Registry.update {α : Type} (r : Registry α) (k : String) (e : Entry α) : Registry α :=
  ⟨r.entries.map (fun kv => if kv.1 == k then (kv.1, e) else kv)⟩

/-- `get(key)`: Not-Found error on a missing key; otherwise realize the
entry (at most one factory call) and store the entry's new state. -/
def Registry.get {α : Type} (r : Registry α) (k : String) : Except String α × Registry α :=
  match r.entries.find? (fun kv => kv.1 == k) with
  | none => (.error ("Not-Found: " ++ k), r)
  | some kv =>
    let fe := kv.2.force
    (fe.1, r.update k fe.2)

/-- `keys()`: enumerate the registered identifiers.  The operation
touches no entry, so it performs no factory invocation; returning the
unchanged registry makes that explicit. -/
def Registry.keysOp {α : Type} (r : Registry α) : List String × Registry α :=
  (r.entries.map (fun kv => kv.1), r)

/-- `items()`: enumerate `(identifier, value)` pairs, forcing
realization of every entry it yields.  (Registry keys are unique — they
come from a Python dict — so realizing each entry in place is the
sequential iteration's effect.) -/
def Registry.itemsOp {α : Type} (r : Registry α) :
    List (String × Except String α) × Registry α :=
  (r.entries.map (fun kv => (kv.1, kv.2.force.1)),
    ⟨r.entries.map (fun kv => (kv.1, kv.2.force.2))⟩)

/-- Total number of factory invocations performed so far, over all
entries of the registry. -/
def Registry.totalInvocations {α : Type} (r : Registry α) : Nat :=
  (r.entries.map (fun kv => kv.2.invocations)).sum

/-! ## The Unique-Key Dictionary and pool merging -/

/-- Modelled from the spec: `UniqueKeyDict` (imported from
`candidate_models.utils` and `submission.utils`, which are not among
the source files; the spec describes it in section 4.2): an ordinary
string-keyed mapping whose insertion rejects a key that is already
present. -/
structure UniqueKeyDict (α : Type) where
  entries : List (String × α)

/-- Lookup in a `UniqueKeyDict`. -/
def UniqueKeyDict.get {α : Type} (d : UniqueKeyDict α) (k : String) : Option α :=
  (d.entries.find? (fun kv => kv.1 == k)).map (fun kv => kv.2)

/-- `set(key, value)`: raises a Duplicate-Key error when `key` is
already present, and appends the new entry otherwise.  The result pairs
the mapping after the call with the raised error, if any: raising
happens before anything is stored, so on a duplicate the mapping is
unchanged. -/
def UniqueKeyDict.set {α : Type} (d : UniqueKeyDict α) (k : String) (v : α) :
    UniqueKeyDict α × Option String :=
  if d.entries.any (fun kv => kv.1 == k) then
    (d, some ("Duplicate-Key: " ++ k))
  else
    (⟨d.entries ++ [(k, v)]⟩, none)

/-- Lookup in a plain pool (an association list of already-populated
identifier/value pairs, as yielded by a pool's `items()`). -/
def plookup {α : Type} (pool : List (String × α)) (k : String) : Option α :=
  (pool.find? (fun kv => kv.1 == k)).map (fun kv => kv.2)

/-- Modelled from the spec: the composition step of
`model_commitments/__init__.py` (its target dictionary class is not
among the source files; spec section 4.3): fold the pools in
caller-specified order into one combined registry, a later pool's
entry for an identifier replacing an earlier pool's entry (merge
explicitly permits overwrite, unlike `set`). -/
def mergePools {α : Type} (pools : List (List (String × α))) : List (String × α) :=
  pools.foldl (fun acc pool => pool.foldl (fun a kv => dictInsert a kv.1 kv.2) acc) []

/-! ## `TFSlimModel.init` and weight lookup -/

/-- The keys of the `preprocessing_types` dict of
`TFSlimModel._init_preprocessing` (lines 54-59). -/
def preprocessing_type_keys : List String := ["vgg", "inception"]

/-- The handle produced by `TFSlimModel.init`: a
`TensorflowSlimWrapper` records the identifier and batching/labels
parameters; the graph built before it depends on the resolved net name
and the image size, which the model therefore also records.  Endpoints,
logits and the session are opaque external objects. -/
structure TensorflowSlimWrapper where
  identifier : String
  net_name : String
  image_size : Nat
  labels_offset : Nat
  batch_size : Nat
deriving Repr, DecidableEq

/-- Python's `net_name or identifier` (line 40): `None` and the empty
string are falsy, anything else is kept. -/
def resolve_net_name (net_name : Option String) (identifier : String) : String :=
  match net_name with
  | none => identifier
  | some s => if s = "" then identifier else s

/-- `TFSlimModel.init` (lines 32-47): `_init_preprocessing` runs first
and asserts `preprocessing_type in preprocessing_types` (line 60);
failure of that assertion aborts construction before any handle is
produced.  On success the wrapper is built with the given identifier,
the resolved net name and the remaining parameters. -/
def TFSlimModel_init (identifier : String) (preprocessing_type : String) (image_size : Nat)
    (net_name : Option String := none) (labels_offset : Nat := 1) (batch_size : Nat := 64) :
    Except String TensorflowSlimWrapper :=
  if preprocessing_type ∈ preprocessing_type_keys then
    .ok ⟨identifier, resolve_net_name net_name identifier, image_size, labels_offset, batch_size⟩
  else
    .error "AssertionError: preprocessing_type not in preprocessing_types"

/-- The configuration environment of `_find_model_weights`: the two
environment variables it reads and the user's home directory that
`os.path.expanduser` substitutes for a leading `~`. -/
structure WeightsEnv where
  cm_home : Option String
  cm_tslim_weights_dir : Option String
  user_home : String

/-- `os.getenv(var, default)`. -/
def getenvD (value : Option String) (dflt : String) : String :=
  value.getD dflt

/-- `os.path.expanduser`, for the paths the source passes it: a leading
`~` is replaced by the user's home directory, any other path is
returned unchanged.  (Character-level formulation so that it evaluates
inside the kernel.) -/
def expanduser (user_home : String) (p : String) : String :=
  if "~".data.isPrefixOf p.data then user_home ++ String.mk (p.data.drop 1) else p

/-- `os.path.join(a, b)` for the relative components the source joins. -/
def pathJoin (a b : String) : String := a ++ "/" ++ b

/-- The filesystem state `_find_model_weights` interacts with:
which directories exist, and the full paths of the existing files in
the order the OS enumerates them for `glob`. -/
structure FileSystem where
  dirs : List String
  files : List String
deriving Repr, DecidableEq

/-- The characters before and after the first (leftmost) occurrence of
the pattern `pat` in a character list, when `pat` occurs at all --
the character-level core of Python's `str.split(sep)`. -/
def charsSplitFirst (pat : List Char) : List Char → Option (List Char × List Char)
  | [] => none
  | c :: rest =>
    if pat.isPrefixOf (c :: rest) then some ([], (c :: rest).drop pat.length)
    else
      match charsSplitFirst pat rest with
      | some (pre, post) => some (c :: pre, post)
      | none => none

/-- Whether a file name (the part of a path after its directory)
matches the glob pattern `*.ckpt*`: a non-empty direct child (`*` does
not cross `/`) containing `.ckpt`. -/
def ckpt_pattern_matches (name : List Char) : Bool :=
  !name.isEmpty && !name.contains '/' && (charsSplitFirst ".ckpt".data name).isSome

/-- `glob.glob(os.path.join(model_path, '*.ckpt*'))`: the files lying
directly in `model_path` whose name matches `*.ckpt*`, in filesystem
order. -/
def globCkpt (fs : FileSystem) (model_path : String) : List String :=
  fs.files.filter (fun f =>
    (model_path ++ "/").data.isPrefixOf f.data &&
    ckpt_pattern_matches (f.data.drop (model_path.data.length + 1)))

/-- `fnames[0].split('.ckpt')[0] + '.ckpt'` (line 92): the part of the
first match before its first `.ckpt` occurrence (the whole string when
`.ckpt` does not occur, as with Python's `split`), with `.ckpt`
re-appended. -/
def restorePathOf (fname : String) : String :=
  (match charsSplitFirst ".ckpt".data fname.data with
   | some (pre, _) => String.mk pre
   | none => fname) ++ ".ckpt"

/-- Lines 83-85 of `_find_model_weights`: `framework_home =
expanduser(getenv('CM_HOME', '~/.candidate_models'))`, `weights_path =
getenv('CM_TSLIM_WEIGHTS_DIR', join(framework_home, 'model-weights',
'slim'))`, `model_path = join(weights_path, model_name)`. -/
def model_weights_path (env : WeightsEnv) (model_name : String) : String :=
  pathJoin
    (getenvD env.cm_tslim_weights_dir
      (pathJoin (pathJoin (expanduser env.user_home (getenvD env.cm_home "~/.candidate_models"))
        "model-weights") "slim"))
    model_name

/-- Lines 86-89 of `_find_model_weights`: when `model_path` is not an
existing directory, create it (`os.makedirs`) and populate it from
remote storage (`s3.download_folder(f"slim/{model_name}",
model_path)`); otherwise leave the filesystem untouched.  Returns the
filesystem after the step and whether a download was performed. -/
def ensure_model_weights_dir (s3files : String → List String) (fs : FileSystem)
    (model_path : String) (model_name : String) : FileSystem × Bool :=
  if fs.dirs.contains model_path then (fs, false)
  else
    (⟨fs.dirs ++ [model_path],
      fs.files ++ (s3files ("slim/" ++ model_name)).map (pathJoin model_path)⟩, true)

/-- `TFSlimModel._find_model_weights` (lines 80-93).  `s3files` models
`s3.download_folder` (external storage collaborator, not among the
source files): the file names it deposits for a given bucket folder.
Returns the filesystem after the call, whether a download was
performed, and either the restore path or the failed
`assert len(fnames) > 0`. -/
def find_model_weights (env : WeightsEnv) (s3files : String → List String)
    (fs : FileSystem) (model_name : String) : FileSystem × Bool × Except String String :=
  match globCkpt (ensure_model_weights_dir s3files fs
      (model_weights_path env model_name) model_name).1 (model_weights_path env model_name) with
  | [] =>
    ((ensure_model_weights_dir s3files fs (model_weights_path env model_name) model_name).1,
      (ensure_model_weights_dir s3files fs (model_weights_path env model_name) model_name).2,
      .error "AssertionError: len(fnames) > 0")
  | f :: _ =>
    ((ensure_model_weights_dir s3files fs (model_weights_path env model_name) model_name).1,
      (ensure_model_weights_dir s3files fs (model_weights_path env model_name) model_name).2,
      .ok (restorePathOf f))

/-- The weight-cache root directory as the specification words it:
the weights-directory override if set, else the home-directory override
joined with `model-weights/slim`, else
`~/.candidate_models/model-weights/slim` (with `~` standing for the
user's home directory). -/
def claimed_weights_root (env : WeightsEnv) : String :=
  match env.cm_tslim_weights_dir with
  | some w => w
  | none =>
    match env.cm_home with
    | some h => pathJoin (pathJoin (expanduser env.user_home h) "model-weights") "slim"
    | none => pathJoin (pathJoin (env.user_home ++ "/.candidate_models") "model-weights") "slim"

/-! ## Helper lemmas on association lists -/

theorem find?_append_of_none {α : Type} (l₁ l₂ : List α) (p : α → Bool)
    (h : l₁.find? p = none) : (l₁ ++ l₂).find? p = l₂.find? p := by
  induction l₁ with
  | nil => simp
  | cons a t ih =>
    simp only [List.find?_cons] at h
    cases hpa : p a with
    | true => simp [hpa] at h
    | false =>
      simp only [hpa] at h
      simp only [List.cons_append, List.find?_cons, hpa]
      exact ih h

theorem find?_map_overwrite {α : Type} (l : List (String × α)) (k : String) (v : α)
    (kv : String × α) (h : l.find? (fun x => x.1 == k) = some kv) :
    (l.map (fun x => if x.1 == k then (x.1, v) else x)).find? (fun x => x.1 == k)
      = some (kv.1, v) := by
  induction l with
  | nil => simp at h
  | cons a t ih =>
    simp only [List.find?_cons] at h
    cases hk : (a.1 == k) with
    | true =>
      simp only [hk] at h
      cases h
      simp only [List.map_cons, hk, if_true, List.find?_cons]
    | false =>
      simp only [hk] at h
      simp only [List.map_cons, List.find?_cons, hk, Bool.false_eq_true, if_false]
      exact ih h

/-! ## Claim theorems -/

set_option maxRecDepth 40000 in
/-- C1: the closure-isolation property fails on the code.  The lambdas
generated inside the mobilenet expansion loop late-bind the
module-level variables `identifier`, `image_size` and `net_name`, so
realizing the factories registered for the two distinct tuples
`(1, 1.0, 224)` and `(2, 1.4, 224)` performs the construction call of
the final loop tuple `(2, 0.35, 96)` in both cases — identical
parameter bindings for non-identical tuples, and neither factory uses
its own tuple's identifier, net name or image size. -/
theorem mobilenet_factories_bind_final_tuple :
    realize "mobilenet_v1_1.0_224" =
      some (.tfslim "mobilenet_v2_0.35_96" "inception" 96 (some "mobilenet_v2") 1) ∧
    realize "mobilenet_v2_1.4_224" =
      some (.tfslim "mobilenet_v2_0.35_96" "inception" 96 (some "mobilenet_v2") 1) ∧
    realize "mobilenet_v1_1.0_224" = realize "mobilenet_v2_0.35_96" :=
  ⟨rfl, rfl, rfl⟩

set_option maxRecDepth 40000 in
/-- C7 (counterexample to the stated counts): the mobilenet descriptor
list contains 38 parameter tuples, not 37, and there are 25 statically
declared non-mobilenet keys, not 24. -/
theorem mobilenet_descriptor_count_is_38 :
    mobilenet_descriptors.length = 38 ∧ ¬mobilenet_descriptors.length = 37 ∧
    static_key_functions.length = 25 ∧ ¬static_key_functions.length = 24 := by
  refine ⟨by decide, by decide, by decide, by decide⟩

set_option maxRecDepth 200000 in
/-- C7 (amended): expanding the 38 mobilenet parameter tuples produces
exactly one factory per tuple, registered in descriptor order under the
identifier `mobilenet_v{version}_{multiplier}_{image_size}`, with zero
duplicate identifiers and no collision with the 25 statically declared
non-mobilenet keys; the net-name override
`mobilenet_v{version}_{multiplier * 100:03}` is applied exactly for
(version 1, multiplier in 0.75/0.5/0.25) and (version 2, multiplier
1.4) — yielding `mobilenet_v1_75.0`, `mobilenet_v1_50.0`,
`mobilenet_v1_25.0` and `mobilenet_v2_140.0` — and every other tuple
keeps the default net name `mobilenet_v{version}`. -/
theorem mobilenet_expansion_determinism_and_overrides :
    key_functions.length = 25 + 38 ∧
    (key_functions.map Prod.fst).Nodup ∧
    key_functions.map Prod.fst =
      static_key_functions.map Prod.fst ++
        mobilenet_descriptors.map (fun d => mobilenet_identifier d.1 d.2.1 d.2.2) ∧
    ((mobilenet_descriptors.filter
        (fun d => !(mobilenet_net_name d.1 d.2.1 == "mobilenet_v" ++ toString d.1))).map
        (fun d => (d.1, d.2.1))).dedup =
      [(1, mkRat 3 4), (1, mkRat 1 2), (1, mkRat 1 4), (2, mkRat 7 5)] ∧
    mobilenet_net_name 1 (mkRat 3 4) = "mobilenet_v1_75.0" ∧
    mobilenet_net_name 1 (mkRat 1 2) = "mobilenet_v1_50.0" ∧
    mobilenet_net_name 1 (mkRat 1 4) = "mobilenet_v1_25.0" ∧
    mobilenet_net_name 2 (mkRat 7 5) = "mobilenet_v2_140.0" := by
  refine ⟨by decide, by decide, by decide, by decide, rfl, rfl, rfl, rfl⟩

theorem find?_register {α : Type} (r : Registry α) (k : String) (f : Nat → Except String α)
    (hfresh : r.entries.find? (fun kv => kv.1 == k) = none) :
    (r.register k f).entries.find? (fun kv => kv.1 == k) = some (k, ⟨f, 0, none⟩) := by
  unfold Registry.register
  rw [find?_append_of_none _ _ _ hfresh]
  simp [List.find?_cons]

/-- C2: a key registered in a fresh slot of a lazy registry is realized
exactly once: the first `get` invokes the factory (the entry's
invocation count becomes 1) and caches its result, and a second `get`
returns the same cached value while the invocation count stays at 1. -/
theorem registry_realization_idempotent {α : Type} (r : Registry α) (k : String)
    (f : Nat → Except String α) (v : α)
    (hfresh : r.entries.find? (fun kv => kv.1 == k) = none)
    (hf : f 0 = .ok v) :
    ((r.register k f).get k).1 = .ok v ∧
    ((r.register k f).get k).2.entries.find? (fun kv => kv.1 == k) = some (k, ⟨f, 1, some v⟩) ∧
    (((r.register k f).get k).2.get k).1 = .ok v ∧
    (((r.register k f).get k).2.get k).2.entries.find? (fun kv => kv.1 == k) =
      some (k, ⟨f, 1, some v⟩) := by
  have h0 := find?_register r k f hfresh
  have hforce : Entry.force (⟨f, 0, none⟩ : Entry α) = (.ok v, ⟨f, 1, some v⟩) := by
    simp [Entry.force, hf]
  have hget1 : (r.register k f).get k = (.ok v, (r.register k f).update k ⟨f, 1, some v⟩) := by
    unfold Registry.get
    rw [h0]
    simp [hforce]
  have h1 : ((r.register k f).update k ⟨f, 1, some v⟩).entries.find? (fun kv => kv.1 == k) =
      some (k, ⟨f, 1, some v⟩) := by
    have := find?_map_overwrite (r.register k f).entries k (⟨f, 1, some v⟩ : Entry α) _ h0
    simpa [Registry.update] using this
  have hforce2 : Entry.force (⟨f, 1, some v⟩ : Entry α) = (.ok v, ⟨f, 1, some v⟩) := by
    simp [Entry.force]
  have hget2 : ((r.register k f).update k ⟨f, 1, some v⟩).get k =
      (.ok v, ((r.register k f).update k ⟨f, 1, some v⟩).update k ⟨f, 1, some v⟩) := by
    unfold Registry.get
    rw [h1]
    simp [hforce2]
  have h2 : (((r.register k f).update k ⟨f, 1, some v⟩).update k ⟨f, 1, some v⟩).entries.find?
      (fun kv => kv.1 == k) = some (k, ⟨f, 1, some v⟩) := by
    have := find?_map_overwrite ((r.register k f).update k ⟨f, 1, some v⟩).entries k
      (⟨f, 1, some v⟩ : Entry α) _ h1
    simpa [Registry.update] using this
  exact ⟨by rw [hget1], by rw [hget1]; exact h1, by rw [hget1, hget2], by rw [hget1, hget2]; exact h2⟩

/-- C2 witness: realizing a freshly registered key of a concrete
registry twice returns the same value both times and leaves the
invocation count at one. -/
theorem registry_realization_idempotent_witness :
    (((⟨[]⟩ : Registry Nat).register "alexnet" (fun _ => .ok 7)).get "alexnet").1 = .ok 7 ∧
    ((((⟨[]⟩ : Registry Nat).register "alexnet" (fun _ => .ok 7)).get "alexnet").2.get
      "alexnet").1 = .ok 7 ∧
    ((((⟨[]⟩ : Registry Nat).register "alexnet" (fun _ => .ok 7)).get "alexnet").2.get
      "alexnet").2.entries.find? (fun kv => kv.1 == "alexnet") =
      some ("alexnet", ⟨fun _ => .ok 7, 1, some 7⟩) := by
  have h := registry_realization_idempotent (⟨[]⟩ : Registry Nat) "alexnet"
    (fun _ => .ok 7) 7 rfl rfl
  exact ⟨h.1, h.2.2.1, h.2.2.2⟩

/-- C5: a factory error propagates out of `get` and is not cached: the
entry stays unrealized (`cached = none`), so the next `get` calls the
factory again; a factory failing on its first call and succeeding on
its second leaves the entry realized after the second `get`. -/
theorem registry_failed_realization_retryable {α : Type} (r : Registry α) (k : String)
    (f : Nat → Except String α) (msg : String) (v : α)
    (hfresh : r.entries.find? (fun kv => kv.1 == k) = none)
    (h0 : f 0 = .error msg) (h1 : f 1 = .ok v) :
    ((r.register k f).get k).1 = .error msg ∧
    ((r.register k f).get k).2.entries.find? (fun kv => kv.1 == k) = some (k, ⟨f, 1, none⟩) ∧
    (((r.register k f).get k).2.get k).1 = .ok v ∧
    (((r.register k f).get k).2.get k).2.entries.find? (fun kv => kv.1 == k) =
      some (k, ⟨f, 2, some v⟩) := by
  have hfind := find?_register r k f hfresh
  have hforce : Entry.force (⟨f, 0, none⟩ : Entry α) = (.error msg, ⟨f, 1, none⟩) := by
    simp [Entry.force, h0]
  have hget1 : (r.register k f).get k = (.error msg, (r.register k f).update k ⟨f, 1, none⟩) := by
    unfold Registry.get
    rw [hfind]
    simp [hforce]
  have hf1 : ((r.register k f).update k ⟨f, 1, none⟩).entries.find? (fun kv => kv.1 == k) =
      some (k, ⟨f, 1, none⟩) := by
    have := find?_map_overwrite (r.register k f).entries k (⟨f, 1, none⟩ : Entry α) _ hfind
    simpa [Registry.update] using this
  have hforce2 : Entry.force (⟨f, 1, none⟩ : Entry α) = (.ok v, ⟨f, 2, some v⟩) := by
    simp [Entry.force, h1]
  have hget2 : ((r.register k f).update k ⟨f, 1, none⟩).get k =
      (.ok v, ((r.register k f).update k ⟨f, 1, none⟩).update k ⟨f, 2, some v⟩) := by
    unfold Registry.get
    rw [hf1]
    simp [hforce2]
  have hf2 : (((r.register k f).update k ⟨f, 1, none⟩).update k ⟨f, 2, some v⟩).entries.find?
      (fun kv => kv.1 == k) = some (k, ⟨f, 2, some v⟩) := by
    have := find?_map_overwrite ((r.register k f).update k ⟨f, 1, none⟩).entries k
      (⟨f, 2, some v⟩ : Entry α) _ hf1
    simpa [Registry.update] using this
  exact ⟨by rw [hget1], by rw [hget1]; exact hf1, by rw [hget1, hget2], by rw [hget1, hget2]; exact hf2⟩

/-- C5 witness: a concrete factory that fails on invocation 0 and
succeeds on invocation 1 leaves the entry unrealized after the first
`get` (which returns the error) and realized after the second. -/
theorem registry_failed_realization_retryable_witness :
    (((⟨[]⟩ : Registry Nat).register "m"
        (fun n => if n = 0 then .error "boom" else .ok 7)).get "m").1 = .error "boom" ∧
    ((((⟨[]⟩ : Registry Nat).register "m"
        (fun n => if n = 0 then .error "boom" else .ok 7)).get "m").2.entries.find?
        (fun kv => kv.1 == "m")) =
      some ("m", ⟨fun n => if n = 0 then .error "boom" else .ok 7, 1, none⟩) ∧
    (((((⟨[]⟩ : Registry Nat).register "m"
        (fun n => if n = 0 then .error "boom" else .ok 7)).get "m").2.get "m")).1 = .ok 7 := by
  have h := registry_failed_realization_retryable (⟨[]⟩ : Registry Nat) "m"
    (fun n => if n = 0 then .error "boom" else .ok 7) "boom" 7 rfl rfl rfl
  exact ⟨h.1, h.2.1, h.2.2.1⟩

/-- C6: enumerating the keys of a registry performs zero factory
invocations (the registry is returned unchanged, and registration
itself also performs none), while `items()` forces realization of every
entry it yields: when every unrealized factory succeeds, every entry is
cached afterwards and every yielded pair carries a realized value. -/
theorem registry_keys_lazy_items_force {α : Type} (r : Registry α) :
    r.keysOp.1 = r.entries.map (fun kv => kv.1) ∧
    r.keysOp.2 = r ∧
    r.keysOp.2.totalInvocations = r.totalInvocations ∧
    (∀ k f, (r.register k f).totalInvocations = r.totalInvocations) ∧
    ((∀ kv ∈ r.entries, kv.2.cached = none → ∃ v, kv.2.factory kv.2.invocations = .ok v) →
      (∀ kv ∈ r.itemsOp.2.entries, kv.2.cached.isSome = true) ∧
      (∀ kv ∈ r.itemsOp.1, ∃ v, kv.2 = .ok v)) := by
  refine ⟨rfl, rfl, rfl, ?_, ?_⟩
  · intro k f
    simp [Registry.register, Registry.totalInvocations]
  · intro hall
    constructor
    · intro kv hkv
      simp only [Registry.itemsOp, List.mem_map] at hkv
      obtain ⟨kv₀, hmem, rfl⟩ := hkv
      cases hc : kv₀.2.cached with
      | some v => simp [Entry.force, hc]
      | none =>
        obtain ⟨v, hv⟩ := hall kv₀ hmem hc
        simp [Entry.force, hc, hv]
    · intro kv hkv
      simp only [Registry.itemsOp, List.mem_map] at hkv
      obtain ⟨kv₀, hmem, rfl⟩ := hkv
      cases hc : kv₀.2.cached with
      | some v => exact ⟨v, by simp [Entry.force, hc]⟩
      | none =>
        obtain ⟨v, hv⟩ := hall kv₀ hmem hc
        exact ⟨v, by simp [Entry.force, hc, hv]⟩

/-- C6 witness: on a concrete registry with two unrealized entries,
`keys()` returns the identifiers with the registry unchanged, and after
`items()` every entry is cached. -/
theorem registry_keys_lazy_items_force_witness :
    (⟨[("a", ⟨fun _ => .ok 1, 0, none⟩), ("b", ⟨fun _ => .ok 2, 0, none⟩)]⟩ :
        Registry Nat).keysOp.1 = ["a", "b"] ∧
    (⟨[("a", ⟨fun _ => .ok 1, 0, none⟩), ("b", ⟨fun _ => .ok 2, 0, none⟩)]⟩ :
        Registry Nat).keysOp.2 =
      ⟨[("a", ⟨fun _ => .ok 1, 0, none⟩), ("b", ⟨fun _ => .ok 2, 0, none⟩)]⟩ ∧
    ((⟨[("a", ⟨fun _ => .ok 1, 0, none⟩), ("b", ⟨fun _ => .ok 2, 0, none⟩)]⟩ :
        Registry Nat).itemsOp.2.entries.all (fun kv => kv.2.cached.isSome)) = true := by
  have h := registry_keys_lazy_items_force
    (⟨[("a", ⟨fun _ => .ok 1, 0, none⟩), ("b", ⟨fun _ => .ok 2, 0, none⟩)]⟩ : Registry Nat)
  have hitems := h.2.2.2.2 (by
    intro kv hkv hc
    simp only [List.mem_cons, List.mem_singleton] at hkv
    rcases hkv with rfl | rfl | h'
    · exact ⟨1, rfl⟩
    · exact ⟨2, rfl⟩
    · exact absurd h' (List.not_mem_nil kv))
  refine ⟨by simpa using h.1, h.2.1, ?_⟩
  exact List.all_eq_true.mpr (fun kv hkv => hitems.1 kv hkv)

/-- C4: inserting a key that is already present in a Unique-Key
Dictionary raises a Duplicate-Key error on the second insertion and
leaves the mapping — in particular the first stored value — unchanged,
while inserting a key not yet present succeeds as in an ordinary
mapping. -/
theorem uniquekeydict_duplicate_rejection {α : Type} (d : UniqueKeyDict α) (k : String)
    (v v₀ : α) :
    (d.get k = some v₀ →
      (d.set k v).2.isSome = true ∧ (d.set k v).1 = d ∧ (d.set k v).1.get k = some v₀) ∧
    (d.get k = none →
      (d.set k v).2 = none ∧ (d.set k v).1.get k = some v) := by
  constructor
  · intro hget
    obtain ⟨kv, hfind, hv⟩ := Option.map_eq_some'.mp hget
    have hpkv := List.find?_some hfind
    have hany : d.entries.any (fun kv => kv.1 == k) = true :=
      List.any_eq_true.mpr ⟨kv, List.mem_of_find?_eq_some hfind, hpkv⟩
    unfold UniqueKeyDict.set
    rw [if_pos hany]
    exact ⟨rfl, rfl, hget⟩
  · intro hget
    have hfind : d.entries.find? (fun kv => kv.1 == k) = none := by
      cases hf : d.entries.find? (fun kv => kv.1 == k) with
      | none => rfl
      | some kv => rw [UniqueKeyDict.get, hf] at hget; simp at hget
    have hany : d.entries.any (fun kv => kv.1 == k) = false := by
      rw [List.any_eq_false]
      intro x hx
      exact List.find?_eq_none.mp hfind x hx
    unfold UniqueKeyDict.set
    rw [if_neg (by simp [hany])]
    refine ⟨rfl, ?_⟩
    show ((⟨d.entries ++ [(k, v)]⟩ : UniqueKeyDict α)).get k = some v
    unfold UniqueKeyDict.get
    rw [find?_append_of_none _ _ _ hfind]
    simp [List.find?_cons]

/-- C4 witness: on a concrete dictionary holding x ↦ 1, re-inserting x
raises Duplicate-Key and keeps x ↦ 1, while inserting the fresh key y
succeeds. -/
theorem uniquekeydict_duplicate_rejection_witness :
    ((⟨[("x", 1)]⟩ : UniqueKeyDict Nat).set "x" 2).2.isSome = true ∧
    ((⟨[("x", 1)]⟩ : UniqueKeyDict Nat).set "x" 2).1 = ⟨[("x", 1)]⟩ ∧
    ((⟨[("x", 1)]⟩ : UniqueKeyDict Nat).set "x" 2).1.get "x" = some 1 ∧
    ((⟨[("x", 1)]⟩ : UniqueKeyDict Nat).set "y" 3).2 = none ∧
    ((⟨[("x", 1)]⟩ : UniqueKeyDict Nat).set "y" 3).1.get "y" = some 3 := by
  have h₁ := (uniquekeydict_duplicate_rejection (⟨[("x", 1)]⟩ : UniqueKeyDict Nat) "x" 2 1).1
    (by decide)
  have h₂ := (uniquekeydict_duplicate_rejection (⟨[("x", 1)]⟩ : UniqueKeyDict Nat) "y" 3 1).2
    (by decide)
  exact ⟨h₁.1, h₁.2.1, h₁.2.2, h₂.1, h₂.2⟩

theorem find?_append_of_some {α : Type} (l₁ l₂ : List α) (p : α → Bool) (a : α)
    (h : l₁.find? p = some a) : (l₁ ++ l₂).find? p = some a := by
  induction l₁ with
  | nil => simp at h
  | cons b t ih =>
    simp only [List.find?_cons] at h
    cases hpb : p b with
    | true =>
      simp only [hpb] at h
      simp only [List.cons_append, List.find?_cons, hpb]
      exact h
    | false =>
      simp only [hpb] at h
      simp only [List.cons_append, List.find?_cons, hpb]
      exact ih h

theorem find?_map_overwrite_other {α : Type} (l : List (String × α)) (k k' : String) (v : α)
    (hne : k' ≠ k) :
    (l.map (fun x => if x.1 == k then (x.1, v) else x)).find? (fun x => x.1 == k') =
      l.find? (fun x => x.1 == k') := by
  induction l with
  | nil => rfl
  | cons a t ih =>
    cases hk' : (a.1 == k') with
    | true =>
      have ha : a.1 = k' := by simpa using hk'
      have hk : (a.1 == k) = false := by
        simp only [beq_eq_false_iff_ne, ne_eq]
        rw [ha]
        exact hne
      simp only [List.map_cons, hk, Bool.false_eq_true, if_false, List.find?_cons, hk']
    | false =>
      cases hk : (a.1 == k) with
      | true =>
        simp only [List.map_cons, hk, if_true, List.find?_cons, hk']
        exact ih
      | false =>
        simp only [List.map_cons, hk, Bool.false_eq_true, if_false, List.find?_cons, hk']
        exact ih

theorem plookup_dictInsert_self {α : Type} (l : List (String × α)) (k : String) (v : α) :
    plookup (dictInsert l k v) k = some v := by
  unfold plookup dictInsert
  by_cases hany : l.any (fun kv => kv.1 == k) = true
  · rw [if_pos hany]
    have hs : (l.find? (fun kv => kv.1 == k)).isSome = true := by
      rw [List.find?_isSome]
      obtain ⟨x, hx, hpx⟩ := List.any_eq_true.mp hany
      exact ⟨x, hx, hpx⟩
    obtain ⟨kv₀, hkv₀⟩ := Option.isSome_iff_exists.mp hs
    rw [find?_map_overwrite l k v kv₀ hkv₀]
    rfl
  · rw [if_neg hany]
    have hfind : l.find? (fun kv => kv.1 == k) = none := by
      rw [List.find?_eq_none]
      intro x hx hpx
      exact hany (List.any_eq_true.mpr ⟨x, hx, hpx⟩)
    rw [find?_append_of_none _ _ _ hfind]
    simp [List.find?_cons]

theorem plookup_dictInsert_other {α : Type} (l : List (String × α)) (k k' : String) (v : α)
    (hne : k' ≠ k) : plookup (dictInsert l k v) k' = plookup l k' := by
  unfold plookup dictInsert
  by_cases hany : l.any (fun kv => kv.1 == k) = true
  · rw [if_pos hany, find?_map_overwrite_other l k k' v hne]
  · rw [if_neg hany]
    cases hf : l.find? (fun kv => kv.1 == k') with
    | some a => rw [find?_append_of_some _ _ _ _ hf]
    | none =>
      rw [find?_append_of_none _ _ _ hf]
      have hkk : (k == k') = false := by
        simp only [beq_eq_false_iff_ne, ne_eq]
        exact fun h => hne h.symm
      simp [List.find?_cons, hkk]

theorem plookup_foldl_pool {α : Type} (pool : List (String × α)) (acc : List (String × α))
    (k : String) (hnd : (pool.map Prod.fst).Nodup) :
    plookup (pool.foldl (fun a kv => dictInsert a kv.1 kv.2) acc) k =
      Option.orElse (plookup pool k) (fun _ => plookup acc k) := by
  induction pool generalizing acc with
  | nil => rfl
  | cons p ps ih =>
    simp only [List.foldl_cons]
    have hnd₂ : (ps.map Prod.fst).Nodup := by
      simp only [List.map_cons, List.nodup_cons] at hnd
      exact hnd.2
    have hhead : p.1 ∉ ps.map Prod.fst := by
      simp only [List.map_cons, List.nodup_cons] at hnd
      exact hnd.1
    rw [ih _ hnd₂]
    cases hk : (p.1 == k) with
    | true =>
      have hk' : p.1 = k := by simpa using hk
      have hps : plookup ps k = none := by
        unfold plookup
        rw [List.find?_eq_none.mpr]
        · rfl
        · intro x hx hpx
          have hxk : x.1 = k := by simpa using hpx
          exact hhead (by
            rw [hk', ← hxk] at *
            exact List.mem_map.mpr ⟨x, hx, rfl⟩)
      rw [hps]
      show plookup (dictInsert acc p.1 p.2) k = Option.orElse (plookup (p :: ps) k) _
      rw [hk', plookup_dictInsert_self]
      unfold plookup
      simp only [List.find?_cons, hk]
      rfl
    | false =>
      have hne : k ≠ p.1 := by
        intro h
        rw [h] at hk
        simp at hk
      rw [plookup_dictInsert_other acc p.1 k p.2 hne]
      have hcons : plookup (p :: ps) k = plookup ps k := by
        unfold plookup
        simp only [List.find?_cons, hk]
      rw [hcons]

theorem isSome_foldl_orElse {α : Type} (pools : List (List (String × α))) (k : String)
    (o : Option α) (h : o.isSome = true) :
    (pools.foldl (fun o p => Option.orElse (plookup p k) (fun _ => o)) o).isSome = true := by
  induction pools generalizing o with
  | nil => exact h
  | cons p ps ih =>
    simp only [List.foldl_cons]
    refine ih _ ?_
    cases hp : plookup p k with
    | some a => rfl
    | none => simpa [Option.orElse] using h

theorem plookup_mergePools_aux {α : Type} (pools : List (List (String × α)))
    (acc : List (String × α)) (k : String)
    (hnd : ∀ p ∈ pools, (p.map Prod.fst).Nodup) :
    plookup (pools.foldl (fun a pool => pool.foldl (fun a kv => dictInsert a kv.1 kv.2) a) acc) k
      = pools.foldl (fun o p => Option.orElse (plookup p k) (fun _ => o)) (plookup acc k) := by
  induction pools generalizing acc with
  | nil => rfl
  | cons p ps ih =>
    simp only [List.foldl_cons]
    rw [ih _ (fun q hq => hnd q (List.mem_cons_of_mem _ hq)),
      plookup_foldl_pool p acc k (hnd p (List.mem_cons_self _ _))]

/-- C3: merging pools in caller-specified order yields, for every
identifier, the entry of the last pool in merge order that contains it
(later pools overwrite earlier ones), and every identifier present in
some source pool is present in the merged result. -/
theorem merge_overwrite_precedence {α : Type} (pools : List (List (String × α))) (k : String)
    (hnd : ∀ p ∈ pools, (p.map Prod.fst).Nodup) :
    plookup (mergePools pools) k =
      pools.foldl (fun o p => Option.orElse (plookup p k) (fun _ => o)) none ∧
    ((∃ p ∈ pools, (plookup p k).isSome = true) →
      (plookup (mergePools pools) k).isSome = true) := by
  have hmain : plookup (mergePools pools) k =
      pools.foldl (fun o p => Option.orElse (plookup p k) (fun _ => o)) none := by
    unfold mergePools
    exact plookup_mergePools_aux pools [] k hnd
  refine ⟨hmain, ?_⟩
  rintro ⟨p, hp, hsome⟩
  rw [hmain]
  obtain ⟨l₁, l₂, rfl⟩ := List.append_of_mem hp
  rw [List.foldl_append]
  simp only [List.foldl_cons]
  refine isSome_foldl_orElse l₂ k _ ?_
  obtain ⟨a, ha⟩ := Option.isSome_iff_exists.mp hsome
  rw [ha]
  rfl

/-- C3 witness: merging A = x ↦ 1 with B = x ↦ 2, y ↦ 3 in order
[A, B] yields x ↦ 2 and y ↦ 3, and in order [B, A] yields x ↦ 1 and
y ↦ 3 — the spec's concrete merge-precedence example. -/
theorem merge_overwrite_precedence_witness :
    plookup (mergePools [[("x", 1)], [("x", 2), ("y", 3)]]) "x" =
      [[("x", 1)], [("x", 2), ("y", 3)]].foldl
        (fun o p => Option.orElse (plookup p "x") (fun _ => o)) none ∧
    plookup (mergePools [[("x", 1)], [("x", 2), ("y", 3)]]) "x" = some 2 ∧
    plookup (mergePools [[("x", 1)], [("x", 2), ("y", 3)]]) "y" = some 3 ∧
    plookup (mergePools [[("x", 2), ("y", 3)], [("x", 1)]]) "x" = some 1 ∧
    plookup (mergePools [[("x", 2), ("y", 3)], [("x", 1)]]) "y" = some 3 := by
  refine ⟨(merge_overwrite_precedence [[("x", 1)], [("x", 2), ("y", 3)]] "x" (by decide)).1,
    by decide, by decide, by decide, by decide⟩

/-- C8: `TFSlimModel.init` with a preprocessing type that is neither
vgg nor inception fails the `_init_preprocessing` assertion at
construction time, before any model handle is produced; with vgg or
inception the assertion does not fire and a handle is produced. -/
theorem tfslim_init_preprocessing_assertion (identifier pt : String) (image_size : Nat)
    (net_name : Option String) (labels_offset batch_size : Nat) :
    (pt ≠ "vgg" → pt ≠ "inception" →
      TFSlimModel_init identifier pt image_size net_name labels_offset batch_size =
        .error "AssertionError: preprocessing_type not in preprocessing_types") ∧
    ((pt = "vgg" ∨ pt = "inception") →
      TFSlimModel_init identifier pt image_size net_name labels_offset batch_size =
        .ok ⟨identifier, resolve_net_name net_name identifier, image_size, labels_offset,
          batch_size⟩) := by
  constructor
  · intro h1 h2
    have hmem : pt ∉ preprocessing_type_keys := by
      simp [preprocessing_type_keys, h1, h2]
    unfold TFSlimModel_init
    rw [if_neg hmem]
  · rintro (rfl | rfl) <;>
      (unfold TFSlimModel_init; rw [if_pos (by simp [preprocessing_type_keys])])

/-- C8 witness: the unsupported preprocessing type `resize` fails the
assertion, while `vgg` constructs a wrapper. -/
theorem tfslim_init_preprocessing_assertion_witness :
    TFSlimModel_init "inception_v1" "resize" 224 none 1 64 =
      .error "AssertionError: preprocessing_type not in preprocessing_types" ∧
    TFSlimModel_init "resnet_v1_50" "vgg" 224 none 0 64 =
      .ok ⟨"resnet_v1_50", "resnet_v1_50", 224, 0, 64⟩ := by
  have h := tfslim_init_preprocessing_assertion "inception_v1" "resize" 224 none 1 64
  have h' := tfslim_init_preprocessing_assertion "resnet_v1_50" "vgg" 224 none 0 64
  exact ⟨h.1 (by decide) (by decide), h'.2 (Or.inl rfl)⟩

theorem model_weights_path_eq (env : WeightsEnv) (model_name : String) :
    model_weights_path env model_name = pathJoin (claimed_weights_root env) model_name := by
  obtain ⟨ch, cw, uh⟩ := env
  unfold model_weights_path claimed_weights_root
  cases cw with
  | some w => rfl
  | none =>
    cases ch with
    | some h => rfl
    | none =>
      show pathJoin (pathJoin (pathJoin (expanduser uh "~/.candidate_models")
        "model-weights") "slim") model_name = _
      unfold expanduser
      rw [if_pos (by decide)]
      have hdrop : String.mk ("~/.candidate_models".data.drop 1) = "/.candidate_models" := by
        decide
      rw [hdrop]

/-- C9: `_find_model_weights` roots the per-model cache directory at
the weights-directory override if set, else at the home-directory
override joined with `model-weights/slim`, else at
`~/.candidate_models/model-weights/slim`; when that directory does not
exist it creates it and populates it by fetching from remote storage,
and when it exists it performs no fetch and leaves the filesystem
untouched (no checksum or freshness re-validation). -/
theorem find_model_weights_fetch_policy (env : WeightsEnv) (s3files : String → List String)
    (fs : FileSystem) (model_name : String) :
    (fs.dirs.contains (pathJoin (claimed_weights_root env) model_name) = true →
      (find_model_weights env s3files fs model_name).1 = fs ∧
      (find_model_weights env s3files fs model_name).2.1 = false) ∧
    (fs.dirs.contains (pathJoin (claimed_weights_root env) model_name) = false →
      (find_model_weights env s3files fs model_name).2.1 = true ∧
      (find_model_weights env s3files fs model_name).1.dirs =
        fs.dirs ++ [pathJoin (claimed_weights_root env) model_name] ∧
      (find_model_weights env s3files fs model_name).1.files =
        fs.files ++ (s3files ("slim/" ++ model_name)).map
          (pathJoin (pathJoin (claimed_weights_root env) model_name))) := by
  have hpath := model_weights_path_eq env model_name
  constructor
  · intro hc
    have hstep : ensure_model_weights_dir s3files fs (model_weights_path env model_name)
        model_name = (fs, false) := by
      unfold ensure_model_weights_dir
      rw [hpath, if_pos hc]
    unfold find_model_weights
    rw [hstep]
    cases globCkpt fs (model_weights_path env model_name) with
    | nil => exact ⟨rfl, rfl⟩
    | cons f t => exact ⟨rfl, rfl⟩
  · intro hc
    have hstep : ensure_model_weights_dir s3files fs (model_weights_path env model_name)
        model_name =
        (⟨fs.dirs ++ [pathJoin (claimed_weights_root env) model_name],
          fs.files ++ (s3files ("slim/" ++ model_name)).map
            (pathJoin (pathJoin (claimed_weights_root env) model_name))⟩, true) := by
      unfold ensure_model_weights_dir
      rw [hpath, if_neg (by rw [hc]; simp)]
    unfold find_model_weights
    rw [hstep]
    cases globCkpt (⟨fs.dirs ++ [pathJoin (claimed_weights_root env) model_name],
        fs.files ++ (s3files ("slim/" ++ model_name)).map
          (pathJoin (pathJoin (claimed_weights_root env) model_name))⟩ : FileSystem)
        (model_weights_path env model_name) with
    | nil => exact ⟨rfl, rfl, rfl⟩
    | cons f t => exact ⟨rfl, rfl, rfl⟩

/-- C9 witness: with no overrides set, an empty filesystem and a
download that deposits one checkpoint file, the cache directory
`/home/user/.candidate_models/model-weights/slim/inception_v1` is
created and populated by the fetch. -/
theorem find_model_weights_fetch_policy_witness :
    (find_model_weights ⟨none, none, "/home/user"⟩ (fun _ => ["model.ckpt.index"]) ⟨[], []⟩
      "inception_v1").2.1 = true ∧
    (find_model_weights ⟨none, none, "/home/user"⟩ (fun _ => ["model.ckpt.index"]) ⟨[], []⟩
      "inception_v1").1.dirs =
      ["/home/user/.candidate_models/model-weights/slim/inception_v1"] ∧
    (find_model_weights ⟨none, none, "/home/user"⟩ (fun _ => ["model.ckpt.index"]) ⟨[], []⟩
      "inception_v1").1.files =
      ["/home/user/.candidate_models/model-weights/slim/inception_v1/model.ckpt.index"] := by
  have h := (find_model_weights_fetch_policy ⟨none, none, "/home/user"⟩
    (fun _ => ["model.ckpt.index"]) ⟨[], []⟩ "inception_v1").2 (by decide)
  exact ⟨h.1, h.2.1.trans (by decide), h.2.2.trans (by decide)⟩

/-- C10: after ensuring the cache directory exists,
`_find_model_weights` asserts that a file matching `*.ckpt*` is
present — an existing but checkpoint-free directory fails the
assertion without any re-fetch attempt — and on success it returns the
first matching file truncated at its first `.ckpt` occurrence with
`.ckpt` appended. -/
theorem find_model_weights_checkpoint_assertion (env : WeightsEnv)
    (s3files : String → List String) (fs : FileSystem) (model_name : String) :
    (fs.dirs.contains (pathJoin (claimed_weights_root env) model_name) = true →
      globCkpt fs (pathJoin (claimed_weights_root env) model_name) = [] →
      (find_model_weights env s3files fs model_name).2.2 =
        .error "AssertionError: len(fnames) > 0" ∧
      (find_model_weights env s3files fs model_name).2.1 = false) ∧
    (∀ f rest, fs.dirs.contains (pathJoin (claimed_weights_root env) model_name) = true →
      globCkpt fs (pathJoin (claimed_weights_root env) model_name) = f :: rest →
      (find_model_weights env s3files fs model_name).2.2 = .ok (restorePathOf f)) := by
  have hpath := model_weights_path_eq env model_name
  constructor
  · intro hc hglob
    have hstep : ensure_model_weights_dir s3files fs (model_weights_path env model_name)
        model_name = (fs, false) := by
      unfold ensure_model_weights_dir
      rw [hpath, if_pos hc]
    unfold find_model_weights
    rw [hstep]
    rw [hpath, hglob]
    exact ⟨rfl, rfl⟩
  · intro f rest hc hglob
    have hstep : ensure_model_weights_dir s3files fs (model_weights_path env model_name)
        model_name = (fs, false) := by
      unfold ensure_model_weights_dir
      rw [hpath, if_pos hc]
    unfold find_model_weights
    rw [hstep]
    rw [hpath, hglob]

/-- C10 witness: a cache directory that exists but contains no
checkpoint file fails the assertion without a re-fetch, and with a
checkpoint file `model.ckpt.index` present the returned restore path is
truncated to `model.ckpt`. -/
theorem find_model_weights_checkpoint_assertion_witness :
    (find_model_weights ⟨none, none, "/h"⟩ (fun _ => [])
      ⟨["/h/.candidate_models/model-weights/slim/inception_v1"], []⟩ "inception_v1").2.2 =
      .error "AssertionError: len(fnames) > 0" ∧
    (find_model_weights ⟨none, none, "/h"⟩ (fun _ => [])
      ⟨["/h/.candidate_models/model-weights/slim/inception_v1"], []⟩ "inception_v1").2.1 =
      false ∧
    (find_model_weights ⟨none, none, "/h"⟩ (fun _ => [])
      ⟨["/h/.candidate_models/model-weights/slim/inception_v1"],
        ["/h/.candidate_models/model-weights/slim/inception_v1/model.ckpt.index"]⟩
      "inception_v1").2.2 =
      .ok "/h/.candidate_models/model-weights/slim/inception_v1/model.ckpt" := by
  have h₁ := (find_model_weights_checkpoint_assertion ⟨none, none, "/h"⟩ (fun _ => [])
    ⟨["/h/.candidate_models/model-weights/slim/inception_v1"], []⟩ "inception_v1").1
    (by decide) (by decide)
  have h₂ := (find_model_weights_checkpoint_assertion ⟨none, none, "/h"⟩ (fun _ => [])
    ⟨["/h/.candidate_models/model-weights/slim/inception_v1"],
      ["/h/.candidate_models/model-weights/slim/inception_v1/model.ckpt.index"]⟩
    "inception_v1").2
    "/h/.candidate_models/model-weights/slim/inception_v1/model.ckpt.index" []
    (by decide) (by decide)
  exact ⟨h₁.1, h₁.2, h₂.trans (congrArg Except.ok (by decide))⟩

end CandidateModels
